import Mathlib

/-!
# Verification of the Telegram video-rating bot (`bot_pg.py`)

Shallow embedding of the single source file `src/bot_pg.py`: the persisted
`videos` table, the SQL statements the handlers execute, the URL regular
expression, the relevant pieces of Python string/int semantics, and the
conversation handlers (`receive_video_links`, `ask_for_rating`,
`receive_rating`, `receive_comment`, `download`, `clear_table`) as pure
functions from their inputs (message text, store, per-user session data)
to their replies, the updated store and the next conversation state.

Conventions:
* PostgreSQL `INTEGER` columns are modelled as `Int` (`ratings_count`, which
  starts at 0 and is only ever incremented, as `Nat`), `FLOAT` as exact
  rationals `ℚ` (the division the code performs is carried out exactly),
  `TEXT[]` as `List String`.
* The asyncpg pool being available is the Boolean parameter `dbOk`,
  mirroring the `if not db_pool` checks in the handlers.
* Message texts are the literal reply strings of the source.
-/

namespace BotPg

/-- One row of the `videos` table, per the `CREATE TABLE` statement in
`post_init`: `id SERIAL PRIMARY KEY, link TEXT NOT NULL UNIQUE,
total_score INTEGER DEFAULT 0, ratings_count INTEGER DEFAULT 0,
avg_score FLOAT DEFAULT 0, comments TEXT[] DEFAULT ARRAY[]::TEXT[]`. -/
structure Video where
  id : Nat
  link : String
  total_score : Int
  ratings_count : Nat
  avg_score : ℚ
  comments : List String
deriving DecidableEq

/-- The `videos` table together with the `SERIAL` sequence that assigns
`id`s. Rows are kept in insertion order. -/
structure Store where
  videos : List Video
  nextId : Nat
deriving DecidableEq

/-- The freshly created table (`CREATE TABLE IF NOT EXISTS`): no rows, the
`SERIAL` sequence starts at 1. -/
def emptyStore : Store := { videos := [], nextId := 1 }

/-- Models `WHERE link = $2` with `$2` taken from `context.user_data.get("current_video")`:
when the key is absent the parameter is SQL `NULL`, which matches no row. -/
def matchesLink (link? : Option String) (v : Video) : Bool :=
  match link? with
  | none => false
  | some l => v.link = l

/-- Models `INSERT INTO videos (link) VALUES ($1) ON CONFLICT (link) DO NOTHING`:
a new row with the column defaults is appended unless a row with this link
already exists. -/
def insertLinkIfAbsent (s : Store) (link : String) : Store :=
  if s.videos.any (fun v => v.link = link) then s
  else
    { videos := s.videos ++
        [{ id := s.nextId, link := link, total_score := 0, ratings_count := 0,
           avg_score := 0, comments := [] }],
      nextId := s.nextId + 1 }

/-- The batch insert loop of `receive_video_links` (one `INSERT … ON CONFLICT
DO NOTHING` per link, in order). -/
def insertLinksIfAbsent (s : Store) (links : List String) : Store :=
  links.foldl insertLinkIfAbsent s

/-- The row update performed by the `UPDATE` in `receive_rating`:
`total_score = total_score + $1, ratings_count = ratings_count + 1,
avg_score = (total_score + $1)::FLOAT / (ratings_count + 1)` — note that the
right-hand sides all read the pre-update column values. -/
def applyRating (r : Int) (v : Video) : Video :=
  { v with
    total_score := v.total_score + r,
    ratings_count := v.ratings_count + 1,
    avg_score := ((v.total_score + r : Int) : ℚ) / ((v.ratings_count + 1 : Nat) : ℚ) }

/-- Models `UPDATE videos SET total_score = …, ratings_count = …, avg_score = …
WHERE link = $2` (from `receive_rating`): every row whose link matches is
updated, the rest are untouched. -/
def ratingUpdate (s : Store) (link? : Option String) (r : Int) : Store :=
  { s with videos := s.videos.map (fun v => if matchesLink link? v then applyRating r v else v) }

/-- Models `UPDATE videos SET comments = array_append(comments, $1) WHERE link = $2`
(from `receive_comment`). -/
def commentUpdate (s : Store) (link? : Option String) (c : String) : Store :=
  { s with videos := s.videos.map (fun v =>
      if matchesLink link? v then { v with comments := v.comments ++ [c] } else v) }

/-- Models `SELECT link FROM videos WHERE ratings_count = 0 LIMIT 1` (from
`ask_for_rating`): some row with `ratings_count = 0`, or none. The embedding
takes the first one in row order. -/
def nextUnratedVideo (s : Store) : Option Video :=
  s.videos.find? (fun v => v.ratings_count = 0)

/-- Models `SELECT * FROM videos` (from `download`). -/
def allVideos (s : Store) : List Video := s.videos

/-- Models `TRUNCATE TABLE videos` (from `clear_table`): all rows are removed; the
`SERIAL` sequence is not restarted. -/
def clearAll (s : Store) : Store := { videos := [], nextId := s.nextId }

/-! ## Python string and integer semantics used by the handlers -/

/-- Python `str.strip()`: remove leading and trailing whitespace. -/
def pyStrip (s : String) : String :=
  String.mk (((s.data.dropWhile Char.isWhitespace).reverse.dropWhile Char.isWhitespace).reverse)

/-- Worker for `pySplit`: `acc` holds the (reversed) characters of the token
currently being read. -/
def splitWsAux : List Char → List Char → List String
  | [], acc => if acc = [] then [] else [String.mk acc.reverse]
  | c :: rest, acc =>
      if c.isWhitespace then
        (if acc = [] then [] else [String.mk acc.reverse]) ++ splitWsAux rest []
      else splitWsAux rest (c :: acc)

/-- Python `str.split()` with no argument: split on runs of whitespace,
producing no empty tokens. -/
def pySplit (s : String) : List String :=
  splitWsAux s.data []

/-- Digit tail of a Python integer literal: digits with single underscores
allowed between digits (`int("1_0") == 10`), accumulating into `acc`. -/
def pyDigits : List Char → Nat → Option Nat
  | [], acc => some acc
  | '_' :: c :: rest, acc =>
      if c.isDigit then pyDigits rest (acc * 10 + (c.toNat - 48)) else none
  | ['_'], _ => none
  | c :: rest, acc =>
      if c.isDigit then pyDigits rest (acc * 10 + (c.toNat - 48)) else none

/-- An unsigned run of digits: at least one digit, then `pyDigits`. -/
def pyDigitsStart : List Char → Option Nat
  | c :: rest => if c.isDigit then pyDigits rest (c.toNat - 48) else none
  | [] => none

/-- Python `int(text)` on a decimal string: surrounding whitespace is
stripped, an optional sign, then digits (with optional single underscores
between them); `none` models the `ValueError` raised otherwise. -/
def pyInt (s : String) : Option Int :=
  match (pyStrip s).data with
  | '+' :: rest => (pyDigitsStart rest).map (fun n => (n : Int))
  | '-' :: rest => (pyDigitsStart rest).map (fun n => -(n : Int))
  | rest => (pyDigitsStart rest).map (fun n => (n : Int))

/-! ## The URL regular expression

`URL_REGEX = ^https?://(?:www\.)?[-a-zA-Z0-9@:%._\+~#=]{1,256}\.`
`[a-zA-Z0-9()]{1,6}\b(?:[-a-zA-Z0-9()@:%_\+.~#?&//=]*)$`

A bounded-repetition regex with backtracking matches iff *some* decomposition
of the string into scheme, optional `www.`, host (1–256 host characters),
`.`, TLD (1–6 TLD characters), word boundary, and path characters succeeds;
the matcher below searches the decompositions explicitly. The tokens fed to
the regex come from `str.split()` and therefore contain no whitespace, so
`$` is end-of-string. -/

/-- The character class `[-a-zA-Z0-9@:%._\+~#=]` (host part). -/
def hostChar (c : Char) : Bool :=
  c.isAlphanum || c = '-' || c = '@' || c = ':' || c = '%' || c = '.' ||
    c = '_' || c = '+' || c = '~' || c = '#' || c = '='

/-- The character class `[a-zA-Z0-9()]` (TLD part). -/
def tldChar (c : Char) : Bool :=
  c.isAlphanum || c = '(' || c = ')'

/-- The character class `[-a-zA-Z0-9()@:%_\+.~#?&//=]` (path part). -/
def pathChar (c : Char) : Bool :=
  c.isAlphanum || c = '-' || c = '(' || c = ')' || c = '@' || c = ':' ||
    c = '%' || c = '_' || c = '+' || c = '.' || c = '~' || c = '#' ||
    c = '?' || c = '&' || c = '/' || c = '='

/-- Regex word character (for `\b`): `[A-Za-z0-9_]`. -/
def wordChar (c : Char) : Bool :=
  c.isAlphanum || c = '_'

/-- Tests `\b` between a last matched character `l` and the remainder `rest`:
exactly one side is a word character (end of string counts as non-word). -/
def boundaryOk (l : Char) (rest : List Char) : Bool :=
  match rest with
  | [] => wordChar l
  | r :: _ => wordChar l != wordChar r

/-- Match `[a-zA-Z0-9()]{1,6}\b(?:[-…]*)$` against the characters after the
host's dot: some TLD length 1–6 works. -/
def tryTld (cs : List Char) : Bool :=
  (List.range 6).any (fun j0 =>
    let j := j0 + 1
    decide ((cs.take j).length = j) &&
    (cs.take j).all tldChar &&
    (match (cs.take j).getLast? with
     | some l => boundaryOk l (cs.drop j)
     | none => false) &&
    (cs.drop j).all pathChar)

/-- Match `[-…]{1,256}\.` then the TLD part: some host length 1–256 (never
more than the remaining characters) followed by a literal dot works. -/
def tryHost (cs : List Char) : Bool :=
  (List.range (min 256 cs.length)).any (fun i0 =>
    let i := i0 + 1
    (cs.take i).all hostChar &&
    (match cs.drop i with
     | '.' :: rest => tryTld rest
     | _ => false))

/-- Matches `^https?://`: strip the scheme, or fail. -/
def afterScheme (cs : List Char) : Option (List Char) :=
  match cs with
  | 'h' :: 't' :: 't' :: 'p' :: 's' :: ':' :: '/' :: '/' :: rest => some rest
  | 'h' :: 't' :: 't' :: 'p' :: ':' :: '/' :: '/' :: rest => some rest
  | _ => none

/-- Models `URL_REGEX.match(link)` as a Boolean: scheme, then either the optional
`www.` is consumed or not, then host/TLD/path. -/
def urlMatch (s : String) : Bool :=
  match afterScheme s.data with
  | none => false
  | some cs =>
    (match cs with
     | 'w' :: 'w' :: 'w' :: '.' :: rest => tryHost rest
     | _ => false) || tryHost cs

/-! ## Conversation states, session data and reply texts -/

/-- The conversation states `WAITING_VIDEO_LINKS, WAITING_SCORE,
WAITING_COMMENT = range(3)` plus `ConversationHandler.END`. -/
inductive ConvState
  | waitingVideoLinks
  | waitingScore
  | waitingComment
  | convEnd
deriving DecidableEq

/-- The per-user `context.user_data` dictionary; the only key the handlers
use is `"current_video"`. -/
structure UserData where
  currentVideo : Option String := none
deriving DecidableEq

/-- What a message handler produces: the texts it replies with (in order),
the store after its SQL statements, the user data after the handler, and the
conversation state it returns. -/
structure StepResult where
  replies : List String
  store : Store
  userData : UserData
  next : ConvState
deriving DecidableEq

def linksEmptyError : String := "Ошибка: отправьте текст со ссылками!"

def invalidLinksMessage (invalid : List String) : String :=
  "Некорректные ссылки: " ++ String.intercalate ", " invalid ++
    "\nПример: http://example.com или https://www.site.com/path"

def linksSavedMessage : String := "✅ Ссылки сохранены!"

def morePromptMessage : String := "Хотите отправить ещё видео или вернуться в меню?"

def dbErrorMessage : String := "Ошибка подключения к БД!"

def allRatedMessage : String := "Спасибо, вы оценили все видео! 🎉"

def ratePromptMessage (link : String) : String := "Оцените видео от 1 до 10:\n" ++ link

def scoreErrorMessage : String := "Ошибка: введите число от 1 до 10."

def commentPromptMessage : String := "Теперь оставьте комментарий (мин. 15 символов):"

def commentTooShortMessage : String := "Комментарий слишком короткий! Введите минимум 15 символов."

def commentSavedMessage : String := "✅ Комментарий сохранён!"

def accessDeniedMessage : String := "У вас нет доступа к этой функции."

def tableClearedMessage : String := "Таблица очищена!"

def tableEmptyMessage : String := "Таблица пуста!"

def csvCaptionMessage : String := "📊 Текущие данные:"

/-! ## Handlers -/

/-- Handler `receive_video_links`: `text = none` models a message without text (the
`not update.message or not update.message.text` guard also fires on the empty
string, which is falsy). Tokens are `text.split()`, each `.strip()`ped;
invalid ones are those rejected by `URL_REGEX.match`; if any exist the batch
is rejected, otherwise every link is inserted with
`ON CONFLICT (link) DO NOTHING`. -/
def receive_video_links (text : Option String) (dbOk : Bool) (s : Store)
    (ud : UserData) : StepResult :=
  match text with
  | none => ⟨[linksEmptyError], s, ud, .waitingVideoLinks⟩
  | some t =>
    if t = "" then ⟨[linksEmptyError], s, ud, .waitingVideoLinks⟩
    else
      let links := (pySplit t).map pyStrip
      let invalid := links.filter (fun l => !urlMatch l)
      if !invalid.isEmpty then ⟨[invalidLinksMessage invalid], s, ud, .waitingVideoLinks⟩
      else if !dbOk then ⟨[dbErrorMessage], s, ud, .convEnd⟩
      else ⟨[linksSavedMessage, morePromptMessage], insertLinksIfAbsent s links, ud, .convEnd⟩

/-- Handler `ask_for_rating`: fetch one unrated video; if none, thank the user and
end; otherwise remember its link in `user_data["current_video"]` and prompt
for a 1–10 score. -/
def ask_for_rating (s : Store) (ud : UserData) : StepResult :=
  match nextUnratedVideo s with
  | none => ⟨[allRatedMessage], s, ud, .convEnd⟩
  | some v => ⟨[ratePromptMessage v.link], s, { ud with currentVideo := some v.link }, .waitingScore⟩

/-- Handler `receive_rating`: `int(text)`, rejected unless in `[1, 10]`; on success
the aggregate `UPDATE` runs immediately against
`user_data.get("current_video")` and the handler moves to
`WAITING_COMMENT`. -/
def receive_rating (text : String) (dbOk : Bool) (s : Store) (ud : UserData) : StepResult :=
  match pyInt text with
  | none => ⟨[scoreErrorMessage], s, ud, .waitingScore⟩
  | some r =>
    if r < 1 || r > 10 then ⟨[scoreErrorMessage], s, ud, .waitingScore⟩
    else if !dbOk then ⟨[dbErrorMessage], s, ud, .convEnd⟩
    else ⟨[commentPromptMessage], ratingUpdate s ud.currentVideo r, ud, .waitingComment⟩

/-- Handler `receive_comment`: the stripped text must be at least 15 characters; on
success `array_append` runs against `user_data.get("current_video")` and the
handler tail-calls `ask_for_rating`. -/
def receive_comment (text : String) (dbOk : Bool) (s : Store) (ud : UserData) : StepResult :=
  let comment := pyStrip text
  if comment.length < 15 then ⟨[commentTooShortMessage], s, ud, .waitingComment⟩
  else if !dbOk then ⟨[dbErrorMessage], s, ud, .convEnd⟩
  else
    let s2 := commentUpdate s ud.currentVideo comment
    let after := ask_for_rating s2 ud
    ⟨commentSavedMessage :: after.replies, after.store, after.userData, after.next⟩

/-- What `download` produces: its replies, the rows it read from the store
(`none` when the `SELECT` never ran), and the store and user data afterwards
(the handler mutates neither). -/
structure DownloadResult where
  replies : List String
  rowsRead : Option (List Video)
  store : Store
  userData : UserData
deriving DecidableEq

/-- Handler `download`: admin check first (`update.effective_user.id not in
ADMIN_IDS`), then the pool check, then `SELECT * FROM videos` and the CSV
hand-off (the exporter itself is out of scope; its caption is the reply). -/
def download (userId : Int) (adminIds : List Int) (dbOk : Bool) (s : Store)
    (ud : UserData) : DownloadResult :=
  if !(adminIds.contains userId) then ⟨[accessDeniedMessage], none, s, ud⟩
  else if !dbOk then ⟨[dbErrorMessage], none, s, ud⟩
  else
    let rows := allVideos s
    if rows.isEmpty then ⟨[tableEmptyMessage], some rows, s, ud⟩
    else ⟨[csvCaptionMessage], some rows, s, ud⟩

/-- Handler `clear_table`: admin check first, then the pool check, then
`TRUNCATE TABLE videos`. Returns (replies, store after, user data after). -/
def clear_table (userId : Int) (adminIds : List Int) (dbOk : Bool) (s : Store)
    (ud : UserData) : List String × Store × UserData :=
  if !(adminIds.contains userId) then ([accessDeniedMessage], s, ud)
  else if !dbOk then ([dbErrorMessage], s, ud)
  else ([tableClearedMessage], clearAll s, ud)

/-! ## Reachable stores

Every SQL statement the bot ever executes against the `videos` table is one
of: the initial `CREATE TABLE` (empty store), an `INSERT … ON CONFLICT DO
NOTHING` from `receive_video_links`, the aggregate `UPDATE` from
`receive_rating` (whose score has passed the `1 ≤ r ≤ 10` validation),
the `array_append` `UPDATE` from `receive_comment`, or `TRUNCATE` from
`clear_table`. -/
inductive Reachable : Store → Prop
  | init : Reachable emptyStore
  | insert (s : Store) (l : String) : Reachable s → Reachable (insertLinkIfAbsent s l)
  | rate (s : Store) (link? : Option String) (r : Int) (hr : 1 ≤ r ∧ r ≤ 10) :
      Reachable s → Reachable (ratingUpdate s link? r)
  | comment (s : Store) (link? : Option String) (c : String) :
      Reachable s → Reachable (commentUpdate s link? c)
  | clear (s : Store) : Reachable s → Reachable (clearAll s)

/-- The row (if any) of the `videos` table whose `link` column equals `l`
(first in row order; `link` is `UNIQUE` on reachable stores). -/
def lookupLink (s : Store) (l : String) : Option Video :=
  s.videos.find? (fun v => v.link = l)

/-! ## Helper lemmas -/

theorem pyStrip_length_le (s : String) : (pyStrip s).length ≤ s.length := by
  show (((s.data.dropWhile Char.isWhitespace).reverse.dropWhile
      Char.isWhitespace).reverse).length ≤ s.data.length
  rw [List.length_reverse]
  refine le_trans (List.dropWhile_sublist _).length_le ?_
  rw [List.length_reverse]
  exact (List.dropWhile_sublist _).length_le

/-- A conditional row update whose condition holds nowhere is the identity. -/
theorem update_no_match {p : Video → Bool} {f : Video → Video} {xs : List Video}
    (h : ∀ v ∈ xs, p v = false) :
    xs.map (fun v => if p v then f v else v) = xs := by
  induction xs with
  | nil => rfl
  | cons a t ih =>
    simp only [List.map_cons, h a (List.mem_cons_self a t), ih
      (fun v hv => h v (List.mem_cons_of_mem a hv))]
    simp

/-- A conditional row update does not change any row's `link` column when the
update function preserves it. -/
theorem links_map_update (p : Video → Bool) (f : Video → Video) (xs : List Video)
    (hf : ∀ v, (f v).link = v.link) :
    (xs.map (fun v => if p v then f v else v)).map Video.link = xs.map Video.link := by
  rw [List.map_map]
  refine List.map_congr_left (fun v _ => ?_)
  by_cases h : p v <;> simp [h, hf]

theorem applyRating_link (r : Int) (v : Video) : (applyRating r v).link = v.link := rfl

/-! ## Claim theorems -/

/-- C5: for every submitted whitespace-separated token batch containing at
least one token rejected by the link validator, no Video rows are created
from that batch (the store is returned unchanged, so no partial insert), the
user is told exactly which tokens failed, and the stage stays
`WAITING_VIDEO_LINKS`. -/
theorem C5_invalid_batch_rejected (t : String) (dbOk : Bool) (s : Store) (ud : UserData)
    (hinv : ((pySplit t).map pyStrip).filter (fun l => !urlMatch l) ≠ []) :
    receive_video_links (some t) dbOk s ud =
      ⟨[invalidLinksMessage (((pySplit t).map pyStrip).filter (fun l => !urlMatch l))],
        s, ud, ConvState.waitingVideoLinks⟩ := by
  have hne : t ≠ "" := by
    intro h
    subst h
    exact hinv rfl
  have hi : ((((pySplit t).map pyStrip).filter (fun l => !urlMatch l)).isEmpty) = false := by
    rcases h : (((pySplit t).map pyStrip).filter (fun l => !urlMatch l)).isEmpty with _ | _
    · rfl
    · exact absurd (List.isEmpty_iff.mp h) hinv
  simp [receive_video_links, hne, hi]

/-- Witness for C5 at the batch `"http://a.com notaurl"`. -/
theorem C5_invalid_batch_rejected_witness :
    receive_video_links (some "http://a.com notaurl") true emptyStore { currentVideo := none } =
      ⟨[invalidLinksMessage ["notaurl"]], emptyStore, { currentVideo := none },
        ConvState.waitingVideoLinks⟩ := by
  have hval : ((pySplit "http://a.com notaurl").map pyStrip).filter (fun l => !urlMatch l) =
      ["notaurl"] := by decide
  have h := C5_invalid_batch_rejected "http://a.com notaurl" true emptyStore
    { currentVideo := none } (by decide)
  rw [hval] at h
  exact h

/-- C8: for every input that is a validation error — text in
`WAITING_SCORE` that `int()` rejects or that parses outside `[1,10]`, and
text in `WAITING_COMMENT` shorter than 15 characters — the error is reported,
the stage does not advance, and the store is unchanged. -/
theorem C8_validation_errors (s : Store) (ud : UserData) (dbOk : Bool) :
    (∀ text, pyInt text = none →
        receive_rating text dbOk s ud = ⟨[scoreErrorMessage], s, ud, ConvState.waitingScore⟩) ∧
    (∀ text r, pyInt text = some r → (r < 1 ∨ 10 < r) →
        receive_rating text dbOk s ud = ⟨[scoreErrorMessage], s, ud, ConvState.waitingScore⟩) ∧
    (∀ text, text.length < 15 →
        receive_comment text dbOk s ud =
          ⟨[commentTooShortMessage], s, ud, ConvState.waitingComment⟩) := by
  refine ⟨fun text h => ?_, fun text r h hr => ?_, fun text h => ?_⟩
  · simp [receive_rating, h]
  · have hb : (r < 1 || 10 < r) = true := by
      rcases hr with h1 | h1 <;> simp [h1]
    simp [receive_rating, h, hb]
  · have hlt : (pyStrip text).length < 15 := lt_of_le_of_lt (pyStrip_length_le text) h
    simp [receive_comment, hlt]

/-- Witness for C8: unparseable text, an out-of-range score, and a 5-character
comment. -/
theorem C8_validation_errors_witness :
    receive_rating "abc" true emptyStore { currentVideo := none } =
        ⟨[scoreErrorMessage], emptyStore, { currentVideo := none }, ConvState.waitingScore⟩ ∧
    receive_rating "11" true emptyStore { currentVideo := none } =
        ⟨[scoreErrorMessage], emptyStore, { currentVideo := none }, ConvState.waitingScore⟩ ∧
    receive_comment "short" true emptyStore { currentVideo := none } =
        ⟨[commentTooShortMessage], emptyStore, { currentVideo := none },
          ConvState.waitingComment⟩ :=
  ⟨(C8_validation_errors emptyStore { currentVideo := none } true).1 "abc" (by decide),
   (C8_validation_errors emptyStore { currentVideo := none } true).2.1 "11" 11 (by decide)
     (Or.inr (by decide)),
   (C8_validation_errors emptyStore { currentVideo := none } true).2.2 "short" (by decide)⟩

/-- C9: for every non-admin user invoking `download` or `clear_table`, the
capability check rejects the request before any store operation: the user
receives the fixed denial message, no rows are read or deleted (the store is
returned unchanged and `download` performs no `SELECT`), and the user's
session data is untouched. -/
theorem C9_admin_gate (userId : Int) (adminIds : List Int) (dbOk : Bool) (s : Store)
    (ud : UserData) (h : userId ∉ adminIds) :
    download userId adminIds dbOk s ud =
      { replies := [accessDeniedMessage], rowsRead := none, store := s, userData := ud } ∧
    clear_table userId adminIds dbOk s ud = ([accessDeniedMessage], s, ud) := by
  have hc : adminIds.contains userId = false := by simpa using h
  constructor <;> simp [download, clear_table, hc, h]

/-- Witness for C9: user 42 against the admin list `[1, 2]`. -/
theorem C9_admin_gate_witness :
    download 42 [1, 2] true emptyStore { currentVideo := none } =
      { replies := [accessDeniedMessage], rowsRead := none, store := emptyStore,
        userData := { currentVideo := none } } ∧
    clear_table 42 [1, 2] true emptyStore { currentVideo := none } =
      ([accessDeniedMessage], emptyStore, { currentVideo := none }) :=
  C9_admin_gate 42 [1, 2] true emptyStore { currentVideo := none } (by decide)

/-- C10: in `WAITING_VIDEO_LINKS`, a non-empty message whose text splits into
no tokens is accepted: validation passes vacuously, no row is inserted, the
success confirmation (and the follow-up menu prompt) is emitted and the
conversation ends; only a message with falsy or absent text is rejected and
stays in `WAITING_VIDEO_LINKS`. -/
theorem C10_whitespace_only_accepted (t : String) (s : Store) (ud : UserData)
    (hne : t ≠ "") (hws : pySplit t = []) :
    receive_video_links (some t) true s ud =
      ⟨[linksSavedMessage, morePromptMessage], s, ud, ConvState.convEnd⟩ ∧
    (∀ dbOk s2 ud2, receive_video_links none dbOk s2 ud2 =
      ⟨[linksEmptyError], s2, ud2, ConvState.waitingVideoLinks⟩) ∧
    (∀ dbOk s2 ud2, receive_video_links (some "") dbOk s2 ud2 =
      ⟨[linksEmptyError], s2, ud2, ConvState.waitingVideoLinks⟩) := by
  refine ⟨?_, fun _ _ _ => rfl, fun _ _ _ => rfl⟩
  simp [receive_video_links, hne, hws, insertLinksIfAbsent]

/-- Witness for C10 at the whitespace-only text `" "`. -/
theorem C10_whitespace_only_accepted_witness :
    receive_video_links (some " ") true emptyStore { currentVideo := none } =
      ⟨[linksSavedMessage, morePromptMessage], emptyStore, { currentVideo := none },
        ConvState.convEnd⟩ :=
  (C10_whitespace_only_accepted " " emptyStore { currentVideo := none }
    (by decide) (by decide)).1

/-- C7: `nextUnratedVideo` never returns a video with `ratings_count > 0`;
it returns none exactly when every video has `ratings_count ≥ 1`, in which
case `ask_for_rating` emits the all-rated message and ends the
conversation. -/
theorem C7_next_unrated (s : Store) (ud : UserData) :
    (∀ v, nextUnratedVideo s = some v → v.ratings_count = 0) ∧
    (nextUnratedVideo s = none ↔ ∀ v ∈ s.videos, 1 ≤ v.ratings_count) ∧
    (nextUnratedVideo s = none →
      ask_for_rating s ud = ⟨[allRatedMessage], s, ud, ConvState.convEnd⟩) := by
  refine ⟨fun v h => ?_, ?_, fun h => ?_⟩
  · have := List.find?_some h
    simpa using this
  · rw [nextUnratedVideo, List.find?_eq_none]
    constructor
    · intro h v hv
      have := h v hv
      simp at this
      omega
    · intro h v hv
      have := h v hv
      simp
      omega
  · simp [ask_for_rating, h]

/-- Witness for C7: once the only video is rated, `ask_for_rating` replies
with the all-rated message and ends. -/
theorem C7_next_unrated_witness :
    ask_for_rating
        (ratingUpdate (insertLinkIfAbsent emptyStore "http://a.com") (some "http://a.com") 7)
        { currentVideo := none } =
      ⟨[allRatedMessage],
        ratingUpdate (insertLinkIfAbsent emptyStore "http://a.com") (some "http://a.com") 7,
        { currentVideo := none }, ConvState.convEnd⟩ :=
  (C7_next_unrated _ _).2.2 (by decide)

/-- On every reachable store the `UNIQUE` constraint on `link` holds: no two
rows share a link. -/
theorem reachable_links_nodup (s : Store) (hs : Reachable s) :
    (s.videos.map Video.link).Nodup := by
  induction hs with
  | init => simp [emptyStore]
  | insert s l _ ih =>
    by_cases h : s.videos.any (fun v => v.link = l) = true
    · rw [insertLinkIfAbsent, if_pos h]
      exact ih
    · rw [insertLinkIfAbsent, if_neg h]
      simp only [List.map_append, List.map_cons, List.map_nil]
      rw [List.nodup_append]
      refine ⟨ih, List.nodup_singleton _, ?_⟩
      intro a ha hb
      simp only [List.mem_singleton] at hb
      subst hb
      obtain ⟨v, hv, hvl⟩ := List.mem_map.mp ha
      exact h (List.any_eq_true.mpr ⟨v, hv, by simp [hvl]⟩)
  | rate s link? r hr _ ih =>
    show ((s.videos.map _).map Video.link).Nodup
    rw [links_map_update (matchesLink link?) (applyRating r) s.videos (fun v => rfl)]
    exact ih
  | comment s link? c _ ih =>
    show ((s.videos.map _).map Video.link).Nodup
    rw [links_map_update (matchesLink link?)
      (fun v => { v with comments := v.comments ++ [c] }) s.videos (fun v => rfl)]
    exact ih
  | clear s _ _ => simp [clearAll]

/-- With pairwise-distinct links, at most one row matches a given link. -/
theorem filter_link_length_le_one (xs : List Video) (l : String)
    (h : (xs.map Video.link).Nodup) :
    (xs.filter (fun v => v.link = l)).length ≤ 1 := by
  induction xs with
  | nil => simp
  | cons a t ih =>
    rw [List.map_cons, List.nodup_cons] at h
    obtain ⟨hnl, ht⟩ := h
    by_cases hl : a.link = l
    · have hft : t.filter (fun v => v.link = l) = [] := by
        rw [List.filter_eq_nil_iff]
        intro v hv
        simp only [decide_eq_true_eq]
        intro hvl
        exact hnl (hl ▸ hvl ▸ List.mem_map_of_mem Video.link hv)
      simp [List.filter_cons, hl, hft]
    · simp only [List.filter_cons, hl, decide_eq_true_eq, if_neg]
      simpa [hl] using ih ht

/-- C6: `INSERT … ON CONFLICT (link) DO NOTHING` is idempotent — inserting a
link twice into a reachable store is the same as inserting it once (so the
second insertion is a no-op that leaves the existing row untouched), and the
result has exactly one row with that link. -/
theorem C6_insert_idempotent (s : Store) (l : String) (hs : Reachable s) :
    insertLinkIfAbsent (insertLinkIfAbsent s l) l = insertLinkIfAbsent s l ∧
    ((insertLinkIfAbsent (insertLinkIfAbsent s l) l).videos.filter
        (fun v => v.link = l)).length = 1 := by
  have hany : (insertLinkIfAbsent s l).videos.any (fun v => v.link = l) = true := by
    by_cases h : s.videos.any (fun v => v.link = l) = true
    · rw [insertLinkIfAbsent, if_pos h]
      exact h
    · rw [insertLinkIfAbsent, if_neg h]
      simp
  have hno : insertLinkIfAbsent (insertLinkIfAbsent s l) l = insertLinkIfAbsent s l := by
    rw [insertLinkIfAbsent, if_pos hany]
  refine ⟨hno, ?_⟩
  rw [hno]
  have hle : ((insertLinkIfAbsent s l).videos.filter (fun v => v.link = l)).length ≤ 1 :=
    filter_link_length_le_one _ l (reachable_links_nodup _ (Reachable.insert s l hs))
  have hge : 1 ≤ ((insertLinkIfAbsent s l).videos.filter (fun v => v.link = l)).length := by
    obtain ⟨v, hv, hvl⟩ := List.any_eq_true.mp hany
    have hm : v ∈ (insertLinkIfAbsent s l).videos.filter (fun v => v.link = l) :=
      List.mem_filter.mpr ⟨hv, hvl⟩
    exact List.length_pos.mpr (List.ne_nil_of_mem hm)
  omega

/-- Witness for C6: double insertion of `"http://a.com"` into the empty
store. -/
theorem C6_insert_idempotent_witness :
    insertLinkIfAbsent (insertLinkIfAbsent emptyStore "http://a.com") "http://a.com" =
      insertLinkIfAbsent emptyStore "http://a.com" ∧
    ((insertLinkIfAbsent (insertLinkIfAbsent emptyStore "http://a.com")
        "http://a.com").videos.filter (fun v => v.link = "http://a.com")).length = 1 :=
  C6_insert_idempotent emptyStore "http://a.com" Reachable.init

/-- The spec's per-row aggregate invariant: `avg_score` is `0` for an
unrated row and exactly `total_score / ratings_count` otherwise. -/
def avgInvariant (v : Video) : Prop :=
  (v.ratings_count = 0 → v.avg_score = 0) ∧
  (0 < v.ratings_count → v.avg_score = (v.total_score : ℚ) / (v.ratings_count : ℚ))

/-- C3: after every operation (creation, rating with a validated score in
`[1,10]`, comment append, clear-all) every row of the store satisfies the
aggregate invariant: `avg_score = total_score / ratings_count` exactly when
`ratings_count > 0`, and `avg_score = 0` when `ratings_count = 0`. -/
theorem C3_avg_invariant (s : Store) (hs : Reachable s) :
    ∀ v ∈ s.videos, avgInvariant v := by
  induction hs with
  | init =>
    intro v hv
    simp [emptyStore] at hv
  | insert s l _ ih =>
    intro v hv
    rw [insertLinkIfAbsent] at hv
    by_cases h : s.videos.any (fun w => w.link = l) = true
    · rw [if_pos h] at hv
      exact ih v hv
    · rw [if_neg h] at hv
      rcases List.mem_append.mp hv with hv | hv
      · exact ih v hv
      · rw [List.mem_singleton] at hv
        subst hv
        exact ⟨fun _ => rfl, fun hc => absurd hc (by simp)⟩
  | rate s link? r hr _ ih =>
    intro v hv
    obtain ⟨w, hw, hwv⟩ := List.mem_map.mp hv
    by_cases h : matchesLink link? w = true
    · rw [if_pos h] at hwv
      subst hwv
      exact ⟨fun h0 => absurd h0 (Nat.succ_ne_zero _), fun _ => rfl⟩
    · rw [if_neg h] at hwv
      subst hwv
      exact ih w hw
  | comment s link? c _ ih =>
    intro v hv
    obtain ⟨w, hw, hwv⟩ := List.mem_map.mp hv
    by_cases h : matchesLink link? w = true
    · rw [if_pos h] at hwv
      subst hwv
      exact ih w hw
    · rw [if_neg h] at hwv
      subst hwv
      exact ih w hw
  | clear s _ _ =>
    intro v hv
    simp [clearAll] at hv

/-- Witness for C3: the row after rating `"http://a.com"` with 7 on a fresh
store satisfies the invariant (`avg_score = 7 = 7 / 1`). -/
theorem C3_avg_invariant_witness :
    avgInvariant
      { id := 1, link := "http://a.com", total_score := 7, ratings_count := 1,
        avg_score := 7, comments := [] } :=
  C3_avg_invariant _
    (Reachable.rate _ (some "http://a.com") 7 ⟨by decide, by decide⟩
      (Reachable.insert _ "http://a.com" Reachable.init)) _
    (by simp [ratingUpdate, insertLinkIfAbsent, emptyStore, matchesLink, applyRating])

/-- A conditional row update keyed on a link commutes with `find?` on that
link when the update preserves the `link` column. -/
theorem find?_link_update (xs : List Video) (l : String) (f : Video → Video)
    (hf : ∀ v, (f v).link = v.link) :
    (xs.map (fun v => if matchesLink (some l) v then f v else v)).find?
        (fun v => v.link = l) =
      (xs.find? (fun v => v.link = l)).map f := by
  induction xs with
  | nil => rfl
  | cons a t ih =>
    by_cases h : a.link = l
    · have h1 : matchesLink (some l) a = true := by simp [matchesLink, h]
      have h2 : decide ((f a).link = l) = true := by simp [hf, h]
      have h3 : decide (a.link = l) = true := by simp [h]
      simp only [List.map_cons, List.find?_cons, h1, if_true, h2, h3, Option.map_some']
    · have h1 : matchesLink (some l) a = false := by simp [matchesLink, h]
      have h2 : decide (a.link = l) = false := by simp [h]
      simp only [List.map_cons, List.find?_cons, h1, Bool.false_eq_true, if_false, h2]
      exact ih

theorem lookupLink_ratingUpdate (s : Store) (l : String) (r : Int) :
    lookupLink (ratingUpdate s (some l) r) l = (lookupLink s l).map (applyRating r) :=
  find?_link_update s.videos l (applyRating r) (fun _ => rfl)

theorem lookupLink_commentUpdate (s : Store) (l : String) (c : String) :
    lookupLink (commentUpdate s (some l) c) l =
      (lookupLink s l).map (fun v => { v with comments := v.comments ++ [c] }) :=
  find?_link_update s.videos l (fun v => { v with comments := v.comments ++ [c] })
    (fun _ => rfl)

/-- Handler `ask_for_rating` only reads the store. -/
theorem ask_for_rating_store (s : Store) (ud : UserData) :
    (ask_for_rating s ud).store = s := by
  rcases h : nextUnratedVideo s with _ | v <;> simp [ask_for_rating, h]

/-- C1 counterexample: with one fresh video `"http://a.com"` in the store and
the session pointing at it, receiving the valid score `"7"` in
`WAITING_SCORE` already mutates the store — the row's `ratings_count` goes
from 0 to 1 before any comment is entered — contradicting "the score is only
held in the Session and nothing is persisted" and "the Store is mutated
exactly once per cycle, at comment acceptance". -/
theorem C1_counterexample :
    ((receive_rating "7" true (insertLinkIfAbsent emptyStore "http://a.com")
        { currentVideo := some "http://a.com" }).store.videos.map
      (fun v => v.ratings_count)) = [1] ∧
    (insertLinkIfAbsent emptyStore "http://a.com").videos.map
      (fun v => v.ratings_count) = [0] := by
  constructor <;> decide

/-- C1 amended: a rating cycle mutates the store twice. At score acceptance
`receive_rating` immediately persists the aggregates (`total_score`,
`ratings_count`, `avg_score`) for the session's current video and moves to
`WAITING_COMMENT`; at comment acceptance `receive_comment` performs a second,
separate update appending only the comment, and then re-enters the rating
loop via `ask_for_rating` on the updated store. -/
theorem C1_amended_two_phase (s : Store) (ud : UserData) (l : String) (v : Video)
    (text ctext : String) (r : Int)
    (hud : ud.currentVideo = some l)
    (hv : lookupLink s l = some v)
    (hr : pyInt text = some r) (h1 : 1 ≤ r) (h2 : r ≤ 10)
    (hc : 15 ≤ (pyStrip ctext).length) :
    receive_rating text true s ud =
      ⟨[commentPromptMessage], ratingUpdate s (some l) r, ud, ConvState.waitingComment⟩ ∧
    lookupLink (ratingUpdate s (some l) r) l = some (applyRating r v) ∧
    receive_comment ctext true (ratingUpdate s (some l) r) ud =
      ⟨commentSavedMessage ::
          (ask_for_rating (commentUpdate (ratingUpdate s (some l) r) (some l)
            (pyStrip ctext)) ud).replies,
        commentUpdate (ratingUpdate s (some l) r) (some l) (pyStrip ctext),
        (ask_for_rating (commentUpdate (ratingUpdate s (some l) r) (some l)
          (pyStrip ctext)) ud).userData,
        (ask_for_rating (commentUpdate (ratingUpdate s (some l) r) (some l)
          (pyStrip ctext)) ud).next⟩ ∧
    lookupLink (commentUpdate (ratingUpdate s (some l) r) (some l) (pyStrip ctext)) l =
      some { applyRating r v with comments := (applyRating r v).comments ++ [pyStrip ctext] } := by
  have hrange : (r < 1 || 10 < r) = false := by
    simp only [Bool.or_eq_false_iff, decide_eq_false_iff_not, not_lt]
    exact ⟨h1, h2⟩
  have hclen : ¬ (pyStrip ctext).length < 15 := not_lt.mpr hc
  refine ⟨?_, ?_, ?_, ?_⟩
  · simp [receive_rating, hr, hrange, hud]
  · rw [lookupLink_ratingUpdate, hv]
    rfl
  · simp only [receive_comment, hclen, if_neg, Bool.not_true, hud]
    simp [ask_for_rating_store]
  · rw [lookupLink_commentUpdate, lookupLink_ratingUpdate, hv]
    rfl

/-- Witness for C1 (amended): one fresh video, score `"7"`, comment
`"a decent video overall"`. -/
theorem C1_amended_two_phase_witness :
    receive_rating "7" true (insertLinkIfAbsent emptyStore "http://a.com")
        { currentVideo := some "http://a.com" } =
      ⟨[commentPromptMessage],
        ratingUpdate (insertLinkIfAbsent emptyStore "http://a.com") (some "http://a.com") 7,
        { currentVideo := some "http://a.com" }, ConvState.waitingComment⟩ ∧
    lookupLink (ratingUpdate (insertLinkIfAbsent emptyStore "http://a.com")
        (some "http://a.com") 7) "http://a.com" =
      some (applyRating 7
        { id := 1, link := "http://a.com", total_score := 0, ratings_count := 0,
          avg_score := 0, comments := [] }) := by
  have h := C1_amended_two_phase (insertLinkIfAbsent emptyStore "http://a.com")
    { currentVideo := some "http://a.com" } "http://a.com"
    { id := 1, link := "http://a.com", total_score := 0, ratings_count := 0,
      avg_score := 0, comments := [] }
    "7" "a decent video overall" 7 rfl
    (by simp [lookupLink, insertLinkIfAbsent, emptyStore])
    (by decide) (by decide) (by decide) (by decide)
  exact ⟨h.1, h.2.1⟩

/-- C2 counterexample: with an empty store (the video was cleared) and the
session still pointing at `"http://gone.com"`, a valid score is met with the
ordinary comment prompt and the conversation moves to `WAITING_COMMENT` with
the store unchanged — no stale-video error is emitted and the session does
not return to Idle. -/
theorem C2_counterexample :
    receive_rating "5" true emptyStore { currentVideo := some "http://gone.com" } =
      ⟨[commentPromptMessage], emptyStore, { currentVideo := some "http://gone.com" },
        ConvState.waitingComment⟩ ∧
    (receive_rating "5" true emptyStore
      { currentVideo := some "http://gone.com" }).next ≠ ConvState.convEnd := by
  constructor <;> decide

/-- C2 amended: there is no `NotFound` failure. When no row has the session's
link, both `UPDATE`s silently match zero rows: the store is unchanged, the
score step replies with the ordinary comment prompt and advances to
`WAITING_COMMENT`, and the comment step replies with the ordinary
save-confirmation and re-enters the rating loop — the workflow reports
success throughout and never emits a stale-video error. -/
theorem C2_amended_silent_noop (s : Store) (ud : UserData) (l : String)
    (text ctext : String) (r : Int)
    (hud : ud.currentVideo = some l)
    (habsent : ∀ v ∈ s.videos, v.link ≠ l)
    (hr : pyInt text = some r) (h1 : 1 ≤ r) (h2 : r ≤ 10)
    (hc : 15 ≤ (pyStrip ctext).length) :
    ratingUpdate s (some l) r = s ∧
    commentUpdate s (some l) (pyStrip ctext) = s ∧
    receive_rating text true s ud =
      ⟨[commentPromptMessage], s, ud, ConvState.waitingComment⟩ ∧
    receive_comment ctext true s ud =
      ⟨commentSavedMessage :: (ask_for_rating s ud).replies, s,
        (ask_for_rating s ud).userData, (ask_for_rating s ud).next⟩ := by
  have hnm : ∀ v ∈ s.videos, matchesLink (some l) v = false := by
    intro v hv
    simpa [matchesLink] using habsent v hv
  have hrat : ratingUpdate s (some l) r = s := by
    rw [ratingUpdate, update_no_match hnm]
  have hcom : commentUpdate s (some l) (pyStrip ctext) = s := by
    rw [commentUpdate, update_no_match hnm]
  have hrange : (r < 1 || 10 < r) = false := by
    simp only [Bool.or_eq_false_iff, decide_eq_false_iff_not, not_lt]
    exact ⟨h1, h2⟩
  have hclen : ¬ (pyStrip ctext).length < 15 := not_lt.mpr hc
  refine ⟨hrat, hcom, ?_, ?_⟩
  · simp [receive_rating, hr, hrange, hud, hrat]
  · simp only [receive_comment, hclen, if_neg, hud]
    simp [hcom, ask_for_rating_store]

/-- Witness for C2 (amended): empty store, stale link `"http://gone.com"`,
score `"5"`, comment `"a decent video overall"`. -/
theorem C2_amended_silent_noop_witness :
    ratingUpdate emptyStore (some "http://gone.com") 5 = emptyStore ∧
    receive_rating "5" true emptyStore { currentVideo := some "http://gone.com" } =
      ⟨[commentPromptMessage], emptyStore, { currentVideo := some "http://gone.com" },
        ConvState.waitingComment⟩ := by
  have h := C2_amended_silent_noop emptyStore { currentVideo := some "http://gone.com" }
    "http://gone.com" "5" "a decent video overall" 5 rfl
    (by simp [emptyStore]) (by decide) (by decide) (by decide) (by decide)
  exact ⟨h.1, h.2.2.1⟩

/-- C4 counterexample: after the score step of a rating cycle (an operation
of the workflow), the rated row has one rating but no comment yet, so the
length of `comments` does not equal `ratings_count` after every operation. -/
theorem C4_counterexample :
    ∃ v ∈ (ratingUpdate (insertLinkIfAbsent emptyStore "http://a.com")
        (some "http://a.com") 7).videos,
      v.comments.length ≠ v.ratings_count := by
  refine ⟨{ id := 1, link := "http://a.com", total_score := 7, ratings_count := 1,
            avg_score := 7, comments := [] }, ?_, ?_⟩
  · simp [ratingUpdate, insertLinkIfAbsent, emptyStore, matchesLink, applyRating]
  · decide

/-- C4 amended: `comments` is append-only (a comment operation never removes
or alters existing comments of any row), and a completed rating cycle
appends exactly one comment while incrementing `ratings_count` by one — but
the increment happens at score acceptance and the append later, at comment
acceptance, so `comments.length = ratings_count` is restored only at the end
of a completed cycle and `ratings_count` exceeds `comments.length` by one in
between. -/
theorem C4_amended_append_only (s : Store) (l : String) (r : Int) (c : String) (v : Video)
    (hv : lookupLink s l = some v) :
    lookupLink (ratingUpdate s (some l) r) l = some (applyRating r v) ∧
    (applyRating r v).comments = v.comments ∧
    (applyRating r v).ratings_count = v.ratings_count + 1 ∧
    lookupLink (commentUpdate (ratingUpdate s (some l) r) (some l) c) l =
      some { applyRating r v with comments := v.comments ++ [c] } ∧
    (v.comments.length = v.ratings_count →
      (applyRating r v).comments.length + 1 = (applyRating r v).ratings_count ∧
      (v.comments ++ [c]).length = (applyRating r v).ratings_count) ∧
    (∀ (s2 : Store) (link? : Option String) (c2 : String),
      ∀ w ∈ (commentUpdate s2 link? c2).videos,
        ∃ u ∈ s2.videos, w.comments = u.comments ∨ w.comments = u.comments ++ [c2]) := by
  refine ⟨?_, rfl, rfl, ?_, ?_, ?_⟩
  · rw [lookupLink_ratingUpdate, hv]
    rfl
  · rw [lookupLink_commentUpdate, lookupLink_ratingUpdate, hv]
    rfl
  · intro hlen
    constructor
    · show v.comments.length + 1 = v.ratings_count + 1
      omega
    · have hlc : (v.comments ++ [c]).length = v.comments.length + 1 := by simp
      rw [hlc]
      show v.comments.length + 1 = v.ratings_count + 1
      omega
  · intro s2 link? c2 w hw
    obtain ⟨u, hu, huw⟩ := List.mem_map.mp hw
    by_cases h : matchesLink link? u = true
    · rw [if_pos h] at huw
      subst huw
      exact ⟨u, hu, Or.inr rfl⟩
    · rw [if_neg h] at huw
      subst huw
      exact ⟨u, hu, Or.inl rfl⟩

/-- Witness for C4 (amended): one fresh video rated 7 and commented. -/
theorem C4_amended_append_only_witness :
    lookupLink (ratingUpdate (insertLinkIfAbsent emptyStore "http://a.com")
        (some "http://a.com") 7) "http://a.com" =
      some (applyRating 7
        { id := 1, link := "http://a.com", total_score := 0, ratings_count := 0,
          avg_score := 0, comments := [] }) ∧
    lookupLink (commentUpdate (ratingUpdate (insertLinkIfAbsent emptyStore "http://a.com")
        (some "http://a.com") 7) (some "http://a.com") "a decent video overall")
        "http://a.com" =
      some { applyRating 7
        { id := 1, link := "http://a.com", total_score := 0, ratings_count := 0,
          avg_score := 0, comments := [] } with
          comments := [] ++ ["a decent video overall"] } ∧
    ([] ++ ["a decent video overall"] : List String).length =
      (applyRating 7
        { id := 1, link := "http://a.com", total_score := 0, ratings_count := 0,
          avg_score := 0, comments := [] }).ratings_count := by
  have h := C4_amended_append_only (insertLinkIfAbsent emptyStore "http://a.com")
    "http://a.com" 7 "a decent video overall"
    { id := 1, link := "http://a.com", total_score := 0, ratings_count := 0,
      avg_score := 0, comments := [] }
    (by simp [lookupLink, insertLinkIfAbsent, emptyStore])
  exact ⟨h.1, h.2.2.2.1, (h.2.2.2.2.1 (by decide)).2⟩

end BotPg
